import Mathlib

/-!
Verification of the statistical analysis core of the rumor-propagation
experiment analysis script (`analyze_experiments.py`).  The experiment
table, the partition of runs by a condition column, the descriptive
statistics, Cohen's d with its magnitude label, the two-sample t-test,
the ordinary least-squares regression, the per-tick mean trajectory and
the experiment pipeline loop are embedded as Lean definitions, and the
specification's claims about them are proved below the definitions.
-/

namespace ATP

/-- A cell of an experiment table: categorical condition values are strings
(the normalizer strips quotes and lowercases truth values), metric values
are numeric. -/
inductive CellVal where
  | str (s : String)
  | num (q : ℚ)
deriving DecidableEq

/-- One row of a table (one simulation run, or one per-tick observation of a
run), as a record of column-name/value pairs. -/
abbrev Row := List (String × CellVal)

/-- The normalized experiment table consumed by the analysis core (a pandas
DataFrame: a list of column names and a list of rows). -/
structure Table where
  cols : List String
  rows : List Row
deriving DecidableEq

/-- Value of column `c` in row `r` (pandas cell access). -/
def getCell (r : Row) (c : String) : Option CellVal :=
  (r.find? (fun p => p.1 == c)).map (fun p => p.2)

/-- Arithmetic mean of a list of metric values (pandas `.mean()`); junk value
`0` on the empty list, where pandas reports NaN. -/
def mean (xs : List ℚ) : ℚ := xs.sum / (xs.length : ℚ)

/-- Sample variance with denominator `n - 1` (the square of pandas `.std()`,
which uses `ddof = 1`); junk value `0` when the length is below 2, where
pandas reports NaN. -/
def sampleVar (xs : List ℚ) : ℚ :=
  ((xs.map (fun x => (x - mean xs) ^ 2)).sum) / ((xs.length : ℚ) - 1)

/-- Sample standard deviation (pandas `.std()`, `ddof = 1`). -/
noncomputable def stdR (xs : List ℚ) : ℝ := Real.sqrt ((sampleVar xs : ℝ))

/-- Pooled standard deviation exactly as the source builds it from the two
groups' standard deviations, line 75 of the script:
`np.sqrt(((len(t)-1)*t_std**2 + (len(f)-1)*f_std**2) / (len(t)+len(f)-2))`,
first argument the true-rumor group, second the false-rumor group. -/
noncomputable def pooled_std (t f : List ℚ) : ℝ :=
  Real.sqrt ((((t.length : ℝ) - 1) * stdR t ^ 2 + ((f.length : ℝ) - 1) * stdR f ^ 2) /
    ((t.length : ℝ) + (f.length : ℝ) - 2))

/-- Cohen's d exactly as the source computes it, line 76 of the script:
`(false_mean - true_mean) / pooled_std`; first argument the true-rumor
group, second the false-rumor group. -/
noncomputable def cohens_d (t f : List ℚ) : ℝ :=
  ((mean f : ℝ) - (mean t : ℝ)) / pooled_std t f

/-- The pooled variance as the specification words it: the `(n-1)`-weighted
average of the two groups' sample variances. -/
def pooledVarSpec (t f : List ℚ) : ℚ :=
  (((t.length : ℚ) - 1) * sampleVar t + ((f.length : ℚ) - 1) * sampleVar f) /
    ((t.length : ℚ) + (f.length : ℚ) - 2)

open Classical in
-- Effect-size magnitude label from line 77 of the script:
-- 'small' if abs(cohens_d) < 0.5 else 'medium' if abs(cohens_d) < 0.8 else 'large'
noncomputable def magLabel (d : ℝ) : String :=
  if |d| < 0.5 then "small" else if |d| < 0.8 then "medium" else "large"

open Classical in
-- Significance band from line 72 of the script:
-- '***' if p < 0.001 else '**' if p < 0.01 else '*' if p < 0.05 else 'ns'
noncomputable def sigBand (p : ℝ) : String :=
  if p < 0.001 then "***" else if p < 0.01 then "**" else if p < 0.05 then "*" else "ns"

/-- Modelled from the spec: slope of the ordinary least-squares fit of `ys`
against `xs` (the source delegates the fit to an external library,
`sklearn.linear_model.LinearRegression`). -/
def olsSlope (xs ys : List ℚ) : ℚ :=
  (((xs.zip ys).map (fun p => (p.1 - mean xs) * (p.2 - mean ys))).sum) /
    ((xs.map (fun x => (x - mean xs) ^ 2)).sum)

/-- Modelled from the spec: intercept of the ordinary least-squares fit. -/
def olsIntercept (xs ys : List ℚ) : ℚ := mean ys - olsSlope xs ys * mean xs

/-- Modelled from the spec: coefficient of determination of the
least-squares fit (the score the source reads back from the external
library's fitted model). -/
def olsR2 (xs ys : List ℚ) : ℚ :=
  1 - (((xs.zip ys).map
        (fun p => (p.2 - (olsIntercept xs ys + olsSlope xs ys * p.1)) ^ 2)).sum) /
      ((ys.map (fun y => (y - mean ys) ^ 2)).sum)

-- A few auxiliary facts about the magnitude label.

lemma magLabel_of_lt_half {d : ℝ} (h : |d| < 0.5) : magLabel d = "small" := by
  unfold magLabel
  rw [if_pos h]

lemma magLabel_of_mid {d : ℝ} (h1 : 0.5 ≤ |d|) (h2 : |d| < 0.8) : magLabel d = "medium" := by
  unfold magLabel
  rw [if_neg (not_lt.mpr h1), if_pos h2]

lemma magLabel_of_ge {d : ℝ} (h : 0.8 ≤ |d|) : magLabel d = "large" := by
  unfold magLabel
  rw [if_neg (not_lt.mpr (le_trans (by norm_num) h)), if_neg (not_lt.mpr h)]

/-- C6: the qualitative magnitude label for a Cohen's d value is "small" when
`|d| < 0.5`, "medium" when `0.5 ≤ |d| < 0.8` and "large" when `0.8 ≤ |d|`;
in particular d = 0.3 is labeled small, d = 0.65 medium, d = 1.2 large, and
the boundary values 0.5 and 0.8 fall on the medium and large sides. -/
theorem magLabel_thresholds :
    (∀ d : ℝ, (|d| < 0.5 → magLabel d = "small")
      ∧ (0.5 ≤ |d| → |d| < 0.8 → magLabel d = "medium")
      ∧ (0.8 ≤ |d| → magLabel d = "large"))
    ∧ magLabel 0.3 = "small" ∧ magLabel 0.65 = "medium" ∧ magLabel 1.2 = "large"
    ∧ magLabel 0.5 = "medium" ∧ magLabel 0.8 = "large" := by
  refine ⟨fun d => ⟨magLabel_of_lt_half, magLabel_of_mid, magLabel_of_ge⟩, ?_, ?_, ?_, ?_, ?_⟩
  · exact magLabel_of_lt_half (by norm_num [abs_of_nonneg])
  · exact magLabel_of_mid (by norm_num [abs_of_nonneg]) (by norm_num [abs_of_nonneg])
  · exact magLabel_of_ge (by norm_num [abs_of_nonneg])
  · exact magLabel_of_mid (by norm_num [abs_of_nonneg]) (by norm_num [abs_of_nonneg])
  · exact magLabel_of_ge (by norm_num [abs_of_nonneg])

/-- Witness for C6 at the concrete input d = 1.2. -/
theorem magLabel_thresholds_witness : magLabel 1.2 = "large" :=
  (magLabel_thresholds.1 1.2).2.2 (by norm_num [abs_of_nonneg])

/-- C7: on the exactly linear input xs = [0,1,2,3], ys = [1,3,5,7]
(y = 2x + 1), the least-squares regression returns slope 2, intercept 1 and
R-squared 1, each within an absolute tolerance of 1e-6. -/
theorem regress_exact_linear :
    |olsSlope [0, 1, 2, 3] [1, 3, 5, 7] - 2| ≤ 1 / 1000000
    ∧ |olsIntercept [0, 1, 2, 3] [1, 3, 5, 7] - 1| ≤ 1 / 1000000
    ∧ |olsR2 [0, 1, 2, 3] [1, 3, 5, 7] - 1| ≤ 1 / 1000000 := by
  have h1 : olsSlope [0, 1, 2, 3] [1, 3, 5, 7] = 2 := by
    norm_num [olsSlope, mean, List.zip, List.zipWith]
  have h2 : olsIntercept [0, 1, 2, 3] [1, 3, 5, 7] = 1 := by
    norm_num [olsIntercept, h1, mean]
  have h3 : olsR2 [0, 1, 2, 3] [1, 3, 5, 7] = 1 := by
    norm_num [olsR2, h1, h2, mean, List.zip, List.zipWith]
  refine ⟨?_, ?_, ?_⟩ <;> [rw [h1]; rw [h2]; rw [h3]] <;> norm_num

lemma sampleVar_nonneg (xs : List ℚ) (h : 2 ≤ xs.length) : 0 ≤ sampleVar xs := by
  unfold sampleVar
  apply div_nonneg
  · apply List.sum_nonneg
    intro x hx
    obtain ⟨a, _, rfl⟩ := List.mem_map.1 hx
    positivity
  · have hq : (2 : ℚ) ≤ (xs.length : ℚ) := by exact_mod_cast h
    linarith

lemma stdR_sq (xs : List ℚ) (h : 2 ≤ xs.length) : stdR xs ^ 2 = ((sampleVar xs : ℚ) : ℝ) := by
  unfold stdR
  rw [Real.sq_sqrt]
  exact_mod_cast sampleVar_nonneg xs h

/-- C2: the source's Cohen's d for the two groups equals
`(false mean - true mean) / pooled std` where the pooled standard deviation
is the square root of the `(n-1)`-weighted average of the two groups'
sample variances; the sign convention false-group mean minus true-group
mean is pinned by the argument order (`t` the true group, `f` the false
group). -/
theorem cohens_d_formula (t f : List ℚ) (ht : 2 ≤ t.length) (hf : 2 ≤ f.length) :
    cohens_d t f =
      (((mean f - mean t : ℚ)) : ℝ) / Real.sqrt (((pooledVarSpec t f : ℚ) : ℝ)) := by
  unfold cohens_d pooled_std
  rw [stdR_sq t ht, stdR_sq f hf]
  congr 1
  · push_cast
    ring
  · congr 1
    unfold pooledVarSpec
    push_cast
    ring

/-- Witness for C2 at the concrete groups t = [0, 2], f = [1, 5]. -/
theorem cohens_d_formula_witness :
    cohens_d [0, 2] [1, 5] =
      (((mean [1, 5] - mean [0, 2] : ℚ)) : ℝ) /
        Real.sqrt (((pooledVarSpec [0, 2] [1, 5] : ℚ) : ℝ)) :=
  cohens_d_formula [0, 2] [1, 5] (by norm_num) (by norm_num)

/-- Modelled from the spec: the statistic of the two-tailed independent
two-sample Student's t-test (the source delegates the test to an external
statistics library): the difference of the sample means divided by the
pooled standard deviation scaled by `sqrt (1/n1 + 1/n2)`. -/
noncomputable def t_stat (a b : List ℚ) : ℝ :=
  (((mean a - mean b : ℚ)) : ℝ) /
    (Real.sqrt (((pooledVarSpec a b : ℚ) : ℝ)) *
      Real.sqrt (1 / (a.length : ℝ) + 1 / (b.length : ℝ)))

/-- Modelled from the spec: the density of Student's t distribution with `v`
degrees of freedom, used for the two-tailed p-value. -/
noncomputable def tPdf (v x : ℝ) : ℝ :=
  (Real.Gamma ((v + 1) / 2) / (Real.sqrt (v * Real.pi) * Real.Gamma (v / 2))) *
    (1 + x ^ 2 / v) ^ (-((v + 1) / 2))

/-- Modelled from the spec: the two-tailed p-value of the t-test, twice the
upper-tail mass of the t distribution with `n1 + n2 - 2` degrees of freedom
beyond the absolute value of the statistic. -/
noncomputable def p_value (a b : List ℚ) : ℝ :=
  2 * ∫ x in Set.Ici |t_stat a b|, tPdf ((a.length : ℝ) + (b.length : ℝ) - 2) x

lemma pooledVarSpec_comm (a b : List ℚ) : pooledVarSpec a b = pooledVarSpec b a := by
  unfold pooledVarSpec
  congr 1
  · ring
  · ring

lemma t_stat_neg (a b : List ℚ) : t_stat a b = -t_stat b a := by
  unfold t_stat
  rw [pooledVarSpec_comm a b, add_comm (1 / (a.length : ℝ))]
  rw [← neg_div]
  congr 1
  push_cast
  ring

lemma p_value_comm (a b : List ℚ) : p_value a b = p_value b a := by
  unfold p_value
  rw [t_stat_neg a b, abs_neg, add_comm ((a.length : ℝ))]

/-- C5: for two groups with at least two observations each, swapping the
groups negates the t statistic exactly and leaves the two-tailed p-value
unchanged. -/
theorem t_test_antisymm (a b : List ℚ) (_ha : 2 ≤ a.length) (_hb : 2 ≤ b.length) :
    t_stat a b = -t_stat b a ∧ p_value a b = p_value b a :=
  ⟨t_stat_neg a b, p_value_comm a b⟩

/-- Witness for C5 at the concrete groups [0, 1] and [0, 2]. -/
theorem t_test_antisymm_witness :
    t_stat [0, 1] [0, 2] = -t_stat [0, 2] [0, 1]
    ∧ p_value [0, 1] [0, 2] = p_value [0, 2] [0, 1] :=
  t_test_antisymm [0, 1] [0, 2] (by norm_num) (by norm_num)

/-- Partition of a list by a valuation: for each value actually taken
(deduplicated, in order of first appearance) the sublist of elements with
that value, exactly the script's repeated pattern
`df[df[condition] == v]` for each condition value `v` present. -/
def partitionBy {α β : Type} [DecidableEq α] [DecidableEq β] (f : α → β) (l : List α) :
    List (β × List α) :=
  ((l.map f).dedup).map (fun v => (v, l.filter (fun x => decide (f x = v))))

/-- The groups of the script's truth-value split: the partition of the
table's rows by the value of condition column `c`. -/
def partitionTable (tbl : Table) (c : String) : List (Option CellVal × List Row) :=
  partitionBy (fun r => getCell r c) tbl.rows

lemma partitionBy_disjoint {α β : Type} [DecidableEq α] [DecidableEq β]
    (f : α → β) (l : List α) :
    ∀ g₁ ∈ partitionBy f l, ∀ g₂ ∈ partitionBy f l, g₁.1 ≠ g₂.1 →
      ∀ r, r ∈ g₁.2 → r ∉ g₂.2 := by
  intro g₁ hg₁ g₂ hg₂ hne r hr₁ hr₂
  simp only [partitionBy, List.mem_map] at hg₁ hg₂
  obtain ⟨v₁, hv₁, rfl⟩ := hg₁
  obtain ⟨v₂, hv₂, rfl⟩ := hg₂
  simp only [List.mem_filter, decide_eq_true_eq] at hr₁ hr₂
  apply hne
  show v₁ = v₂
  rw [← hr₁.2, ← hr₂.2]

lemma count_bind_filter {α β : Type} [DecidableEq α] [DecidableEq β]
    (f : α → β) (l : List α) (r : α) :
    ∀ vs : List β, vs.Nodup →
      ((vs.flatMap (fun v => l.filter (fun x => decide (f x = v)))).count r) =
        if f r ∈ vs then l.count r else 0 := by
  intro vs
  induction vs with
  | nil => intro _; simp
  | cons v vs ih =>
    intro hnd
    rw [List.flatMap_cons, List.count_append, ih hnd.of_cons]
    by_cases hv : f r = v
    · subst hv
      have hnin : f r ∉ vs := (List.nodup_cons.1 hnd).1
      rw [List.count_filter (by simp)]
      simp [hnin]
    · have hz : (l.filter (fun x => decide (f x = v))).count r = 0 := by
        apply List.count_eq_zero.2
        intro hmem
        have hd := (List.mem_filter.1 hmem).2
        simp only [decide_eq_true_eq] at hd
        exact hv hd
      rw [hz]
      simp [hv]

lemma partitionBy_perm {α β : Type} [DecidableEq α] [DecidableEq β]
    (f : α → β) (l : List α) :
    ((partitionBy f l).flatMap (fun g => g.2)).Perm l := by
  rw [List.perm_iff_count]
  intro r
  have hb : (partitionBy f l).flatMap (fun g => g.2) =
      ((l.map f).dedup).flatMap (fun v => l.filter (fun x => decide (f x = v))) := by
    unfold partitionBy
    rw [List.flatMap_map]
  rw [hb, count_bind_filter f l r _ (List.nodup_dedup _)]
  by_cases hr : r ∈ l
  · rw [if_pos (List.mem_dedup.mpr (List.mem_map_of_mem f hr))]
  · rw [List.count_eq_zero.2 hr]
    simp

/-- C1: partitioning the table's rows by the values of a condition column
yields groups that are pairwise disjoint (a row in the group of one value
is in no group of a different value) and whose concatenation is a
permutation of the table's rows, so no run is dropped and none is counted
twice. -/
theorem partition_disjoint_exhaustive (tbl : Table) (c : String) :
    (∀ g₁ ∈ partitionTable tbl c, ∀ g₂ ∈ partitionTable tbl c, g₁.1 ≠ g₂.1 →
      ∀ r, r ∈ g₁.2 → r ∉ g₂.2)
    ∧ ((partitionTable tbl c).flatMap (fun g => g.2)).Perm tbl.rows :=
  ⟨partitionBy_disjoint _ tbl.rows, partitionBy_perm _ tbl.rows⟩

/-- A two-row table used to witness the partition claim. -/
def wTable : Table :=
  { cols := ["cond"],
    rows := [[("cond", CellVal.str "x")], [("cond", CellVal.str "y")]] }

/-- Witness for C1: in the concrete two-value table, the row of the
"x"-group is not in the "y"-group. -/
theorem partition_disjoint_exhaustive_witness :
    [("cond", CellVal.str "x")] ∉
      ((some (CellVal.str "y"), [[("cond", CellVal.str "y")]]) :
        Option CellVal × List Row).2 :=
  (partition_disjoint_exhaustive wTable "cond").1
    (some (CellVal.str "x"), [[("cond", CellVal.str "x")]]) (by decide)
    (some (CellVal.str "y"), [[("cond", CellVal.str "y")]]) (by decide)
    (by decide) _ (by decide)

/-- Modelled from the spec: the error taxonomy of the analysis core (the
reference script has no explicit error classes; the spec pins
`SchemaError` for an absent column and `InsufficientDataError` for a group
below the minimum size a statistic requires). -/
inductive AnalysisError where
  | schemaError
  | insufficientData
deriving DecidableEq

/-- The structured result of a two-group comparison: per-group mean,
standard deviation and sample size, the t statistic, the p-value, the
significance band, Cohen's d and its magnitude label. -/
structure ComparisonResult where
  meanA : ℚ
  meanB : ℚ
  stdA : ℝ
  stdB : ℝ
  nA : ℕ
  nB : ℕ
  t : ℝ
  p : ℝ
  d : ℝ
  sig : String
  label : String

/-- Modelled from the spec: `compareTwo` fails with `InsufficientDataError`
when either group has fewer than 2 observations of the metric (variance
undefined), and otherwise returns the comparison result whose statistics
are the ones the script computes. -/
noncomputable def compareTwo (a b : List ℚ) : Except AnalysisError ComparisonResult :=
  if a.length < 2 ∨ b.length < 2 then .error .insufficientData
  else .ok
    { meanA := mean a, meanB := mean b, stdA := stdR a, stdB := stdR b,
      nA := a.length, nB := b.length, t := t_stat a b, p := p_value a b,
      d := cohens_d a b, sig := sigBand (p_value a b),
      label := magLabel (cohens_d a b) }

/-- C3: whenever either group has fewer than 2 observations, `compareTwo`
fails with `InsufficientDataError` instead of returning a result; in the
spec's example, the runs with condition values ["A", "A", "B"] and metric
values [1, 2, 10] partition into group "A" = [1, 2] (n = 2, mean 1.5) and
group "B" = [10] (n = 1, variance undefined), and comparing them fails
with `InsufficientDataError`. -/
theorem compareTwo_insufficient :
    (∀ a b : List ℚ, a.length < 2 ∨ b.length < 2 →
      compareTwo a b = .error .insufficientData)
    ∧ partitionBy Prod.fst [("A", (1 : ℚ)), ("A", 2), ("B", 10)] =
        [("A", [("A", 1), ("A", 2)]), ("B", [("B", 10)])]
    ∧ mean [1, 2] = 3 / 2
    ∧ ([(1 : ℚ), 2].length = 2 ∧ ([(10 : ℚ)].length = 1))
    ∧ compareTwo [1, 2] [10] = .error .insufficientData := by
  have herr : ∀ a b : List ℚ, a.length < 2 ∨ b.length < 2 →
      compareTwo a b = .error .insufficientData := by
    intro a b h
    unfold compareTwo
    rw [if_pos h]
  refine ⟨herr, by decide, by norm_num [mean], ⟨rfl, rfl⟩, herr _ _ (Or.inr (by norm_num))⟩

/-- Witness for C3: comparing a three-element group with a singleton group
fails with `InsufficientDataError`. -/
theorem compareTwo_insufficient_witness :
    compareTwo [5, 6, 7] [9] = .error .insufficientData :=
  compareTwo_insufficient.1 [5, 6, 7] [9] (Or.inr (by norm_num))

/-- One observation of a metric in a repeated-measures experiment: the run
it belongs to, the tick, and the metric value. -/
structure Obs where
  runId : ℕ
  tick : ℤ
  value : ℚ
deriving DecidableEq

/-- The distinct tick values present in a group, in order of first
appearance. -/
def ticksOf (g : List Obs) : List ℤ := (g.map (fun o => o.tick)).dedup

/-- The distinct ticks of a group sorted ascending (pandas `groupby('ticks')`
sorts its keys). -/
def sortedTicks (g : List Obs) : List ℤ := (ticksOf g).mergeSort

/-- The metric values observed at tick `t` across the runs of the group. -/
def valsAt (g : List Obs) (t : ℤ) : List ℚ :=
  (g.filter (fun o => o.tick == t)).map (fun o => o.value)

/-- One point of a mean trajectory: tick, mean, standard error and the 95%
band. -/
structure TrajPoint where
  tick : ℤ
  mean : ℚ
  sem : ℝ
  lo : ℝ
  hi : ℝ

/-- The mean trajectory of a group: at each distinct tick, ascending, the
mean of the metric across the runs observed at that tick (line 275 of the
script, `subset.groupby('ticks')[col].mean()`); the standard error (sample
standard deviation over the square root of the run count at that tick) and
the 95% band `mean ± 1.96 * sem` are modelled from the spec, which adds
them to the rendered mean. -/
noncomputable def meanTrajectory (g : List Obs) : List TrajPoint :=
  (sortedTicks g).map (fun t =>
    { tick := t, mean := mean (valsAt g t),
      sem := stdR (valsAt g t) / Real.sqrt (((valsAt g t).length : ℝ)),
      lo := ((mean (valsAt g t) : ℚ) : ℝ) -
        1.96 * (stdR (valsAt g t) / Real.sqrt (((valsAt g t).length : ℝ))),
      hi := ((mean (valsAt g t) : ℚ) : ℝ) +
        1.96 * (stdR (valsAt g t) / Real.sqrt (((valsAt g t).length : ℝ))) })

/-- The spec's two synthetic runs: values [0, 0.2, 0.4] and [0, 0.4, 0.8]
at ticks [0, 1, 2]. -/
def exGroup : List Obs :=
  [⟨1, 0, 0⟩, ⟨1, 1, 1 / 5⟩, ⟨1, 2, 2 / 5⟩,
   ⟨2, 0, 0⟩, ⟨2, 1, 2 / 5⟩, ⟨2, 2, 4 / 5⟩]

/-- C4: the mean trajectory has one point per distinct tick of the group,
its ticks are exactly the group's distinct ticks sorted strictly
ascending, each point carries the mean of the metric over the runs
observed at its tick, the standard error `std / sqrt n`, and the band
`mean ± 1.96 * sem`; on the spec's two synthetic runs the means are
[0, 0.3, 0.6] and the standard error at tick 2 is `std [0.4, 0.8] / √2`. -/
theorem meanTrajectory_spec :
    (∀ g : List Obs,
      ((meanTrajectory g).map (fun p => p.tick)) = sortedTicks g
      ∧ List.Sorted (· < ·) (sortedTicks g)
      ∧ (∀ t : ℤ, t ∈ sortedTicks g ↔ t ∈ g.map (fun o => o.tick))
      ∧ (∀ p ∈ meanTrajectory g,
          p.mean = mean (valsAt g p.tick)
          ∧ p.sem = stdR (valsAt g p.tick) / Real.sqrt (((valsAt g p.tick).length : ℝ))
          ∧ p.lo = ((p.mean : ℚ) : ℝ) - 1.96 * p.sem
          ∧ p.hi = ((p.mean : ℚ) : ℝ) + 1.96 * p.sem))
    ∧ (meanTrajectory exGroup).map (fun p => p.mean) = [0, 3 / 10, 3 / 5]
    ∧ (∀ p ∈ meanTrajectory exGroup, p.tick = 2 →
        p.sem = stdR [2 / 5, 4 / 5] / Real.sqrt 2) := by
  have hsort : sortedTicks exGroup = [0, 1, 2] := by
    have hticks : ticksOf exGroup = [0, 1, 2] := by decide
    rw [sortedTicks, hticks]
    exact List.mergeSort_eq_self (by decide)
  refine ⟨fun g => ⟨?_, ?_, ?_, ?_⟩, ?_, ?_⟩
  · simp [meanTrajectory, List.map_map, Function.comp_def]
  · have hle : List.Sorted (· ≤ ·) (sortedTicks g) := List.sorted_mergeSort' _
    have hnd : (sortedTicks g).Nodup :=
      ((List.mergeSort_perm (ticksOf g) _).nodup_iff).2 (List.nodup_dedup _)
    exact hle.lt_of_le hnd
  · exact fun t => ((List.mergeSort_perm (ticksOf g) _).mem_iff).trans (List.mem_dedup)
  · intro p hp
    obtain ⟨t, _, rfl⟩ := List.mem_map.1 hp
    exact ⟨rfl, rfl, rfl, rfl⟩
  · have hv0 : valsAt exGroup 0 = [0, 0] := rfl
    have hv1 : valsAt exGroup 1 = [1 / 5, 2 / 5] := rfl
    have hv2 : valsAt exGroup 2 = [2 / 5, 4 / 5] := rfl
    simp only [meanTrajectory, hsort, List.map_cons, List.map_nil, hv0, hv1, hv2]
    norm_num [mean]
  · intro p hp htick
    simp only [meanTrajectory, hsort, List.map_cons, List.map_nil,
      List.mem_cons, List.not_mem_nil, or_false] at hp
    rcases hp with rfl | rfl | rfl
    · exact absurd htick (by norm_num)
    · exact absurd htick (by norm_num)
    · have hv2 : valsAt exGroup 2 = [2 / 5, 4 / 5] := rfl
      show stdR (valsAt exGroup 2) / Real.sqrt (((valsAt exGroup 2).length : ℝ)) =
        stdR [2 / 5, 4 / 5] / Real.sqrt 2
      rw [hv2]
      norm_num

/-- Witness for C4: tick 2 is among the trajectory ticks of the example
group. -/
theorem meanTrajectory_spec_witness : (2 : ℤ) ∈ sortedTicks exGroup :=
  ((meanTrajectory_spec.1 exGroup).2.2.1 2).mpr (by decide)

/-- Whether column `c` exists in the table (`c in df.columns`). -/
def hasCol (tbl : Table) (c : String) : Bool := tbl.cols.contains c

/-- Number of distinct values of column `c` present in the table (pandas
`df[c].nunique()`, which counts distinct non-null values). -/
def nunique (tbl : Table) (c : String) : ℕ :=
  ((tbl.rows.filterMap (fun r => getCell r c)).dedup).length

/-- The outcome of loading one experiment file in the main loop: the file
does not exist, loading raises, or a table is produced. -/
inductive LoadResult where
  | missing
  | loadFail
  | loaded (df : Table)
deriving DecidableEq

/-- The guard of the analysis dispatch in the main loop (lines 380 to 397 of
the script): the truth-value comparison runs only when the truth-value
column is present and has exactly two distinct values, the heterogeneity
regression and the network ANOVA only when their condition column is
present with more than one distinct value, the time-series analysis only
when a ticks column is present, and the summary always. -/
def guardHolds (df : Table) (a : String) : Bool :=
  if a = "false_vs_true" then
    hasCol df "rumor-is-true?" && (nunique df "rumor-is-true?" == 2)
  else if a = "heterogeneity" then
    hasCol df "heterogeneity-level" && decide (1 < nunique df "heterogeneity-level")
  else if a = "network" then
    hasCol df "network-type" && decide (1 < nunique df "network-type")
  else if a = "timeseries" then hasCol df "ticks"
  else a == "summary"

/-- The analyses of an experiment whose guard holds and that are therefore
invoked on the loaded table. -/
def invokedAnalyses (df : Table) (types : List String) : List String :=
  types.filter (fun a => guardHolds df a)

/-- Whether one experiment of the main loop ends in the `successful` tally:
a missing file or a load error lands in `failed`; otherwise the experiment
succeeds exactly when none of its invoked analyses raises (`raises` says
which invoked analysis would raise on which table). -/
def processExp (raises : String → Table → Bool) (types : List String) :
    LoadResult → Bool
  | .missing => false
  | .loadFail => false
  | .loaded df => (invokedAnalyses df types).all (fun a => !raises a df)

/-- One experiment of the main loop: its display name, the analyses
configured for it, and the outcome of loading its file. -/
structure Experiment where
  name : String
  analyses : List String
  load : LoadResult
deriving DecidableEq

/-- The main loop of the script (lines 361 to 408): every experiment is
processed in turn inside a try/except, and its name is appended to the
`successful` or the `failed` list; no outcome aborts the loop. -/
def runPipeline (raises : String → Table → Bool) :
    List Experiment → List String × List String
  | [] => ([], [])
  | e :: rest =>
    let r := runPipeline raises rest
    if processExp raises e.analyses e.load then (e.name :: r.1, r.2)
    else (r.1, e.name :: r.2)

/-- The final summary of the script (lines 410 to 423): the counts of
succeeded and failed experiments, printed unconditionally. -/
def finalSummary (r : List String × List String) : ℕ × ℕ := (r.1.length, r.2.length)

/-- C8: the pipeline always runs to completion: the succeeded tally is
exactly the experiments whose processing succeeds and the failed tally
exactly the others, every experiment is counted in the final summary
(the two counts add up to the number of experiments, even when all of
them failed), and an experiment whose input file is missing is recorded
as failed and skipped, never aborting the run. -/
theorem pipeline_total_summary (raises : String → Table → Bool)
    (exps : List Experiment) :
    (runPipeline raises exps).1 =
      (exps.filter (fun e => processExp raises e.analyses e.load)).map (fun e => e.name)
    ∧ (runPipeline raises exps).2 =
      (exps.filter (fun e => !processExp raises e.analyses e.load)).map (fun e => e.name)
    ∧ (finalSummary (runPipeline raises exps)).1 +
        (finalSummary (runPipeline raises exps)).2 = exps.length
    ∧ ∀ e ∈ exps, e.load = .missing → e.name ∈ (runPipeline raises exps).2 := by
  induction exps with
  | nil => exact ⟨rfl, rfl, rfl, by intro e he; exact absurd he (List.not_mem_nil e)⟩
  | cons e rest ih =>
    obtain ⟨ih1, ih2, ih3, ih4⟩ := ih
    simp only [finalSummary] at ih3 ⊢
    by_cases hp : processExp raises e.analyses e.load
    · refine ⟨?_, ?_, ?_, ?_⟩
      · simp [runPipeline, hp, ih1]
      · simp [runPipeline, hp, ih2]
      · simp only [runPipeline, hp, if_true, List.length_cons]
        omega
      · intro x hx hm
        rcases List.mem_cons.1 hx with rfl | hx2
        · rw [hm] at hp
          simp [processExp] at hp
        · simp only [runPipeline, hp, if_true]
          exact ih4 x hx2 hm
    · refine ⟨?_, ?_, ?_, ?_⟩
      · simp [runPipeline, hp, ih1]
      · simp [runPipeline, hp, ih2]
      · simp [runPipeline, hp]
        omega
      · intro x hx hm
        rcases List.mem_cons.1 hx with rfl | hx2
        · simp [runPipeline, hp]
        · simp only [runPipeline, hp, if_false]
          exact List.mem_cons_of_mem _ (ih4 x hx2 hm)

/-- Witness for C8: a pipeline of one experiment with a missing file records
it as failed. -/
theorem pipeline_total_summary_witness :
    "exp1" ∈ (runPipeline (fun _ _ => false)
      [{ name := "exp1", analyses := ["summary"], load := .missing }]).2 :=
  (pipeline_total_summary (fun _ _ => false)
      [{ name := "exp1", analyses := ["summary"], load := .missing }]).2.2.2
    { name := "exp1", analyses := ["summary"], load := .missing }
    (List.mem_singleton.mpr rfl) rfl

/-- C10: the truth-value comparison is invoked exactly when the truth-value
column is present with exactly two distinct values; when that guard fails
the comparison is skipped and, if it was the experiment's only analysis,
the experiment is still recorded as successful (no error is raised). -/
theorem fvt_guard_skip (raises : String → Table → Bool) (df : Table)
    (types : List String) :
    ("false_vs_true" ∈ invokedAnalyses df types →
      hasCol df "rumor-is-true?" = true ∧ nunique df "rumor-is-true?" = 2)
    ∧ (¬(hasCol df "rumor-is-true?" = true ∧ nunique df "rumor-is-true?" = 2) →
        "false_vs_true" ∉ invokedAnalyses df types)
    ∧ (¬(hasCol df "rumor-is-true?" = true ∧ nunique df "rumor-is-true?" = 2) →
        processExp raises ["false_vs_true"] (.loaded df) = true) := by
  have hguard : guardHolds df "false_vs_true" = true ↔
      (hasCol df "rumor-is-true?" = true ∧ nunique df "rumor-is-true?" = 2) := by
    unfold guardHolds
    rw [if_pos rfl]
    simp
  refine ⟨?_, ?_, ?_⟩
  · intro hmem
    exact hguard.1 (List.of_mem_filter hmem)
  · intro hng hmem
    exact hng (hguard.1 (List.of_mem_filter hmem))
  · intro hng
    have : guardHolds df "false_vs_true" = false :=
      Bool.eq_false_iff.mpr (fun h => hng (hguard.1 h))
    simp [processExp, invokedAnalyses, this]

/-- Witness for C10: on a table with no columns the guard fails, the
comparison is not invoked, and the experiment still succeeds. -/
theorem fvt_guard_skip_witness :
    processExp (fun _ _ => true) ["false_vs_true"]
      (.loaded { cols := [], rows := [] }) = true :=
  (fvt_guard_skip (fun _ _ => true) { cols := [], rows := [] }
      ["false_vs_true"]).2.2 (by decide)

/-- The pandas operations the script applies to a data frame, with their
effect on that frame: filtering, column reads, aggregations and sorts all
return new objects and leave the frame untouched; only column assignment
(`df[c] = ...`, used by the loader to normalize condition columns) mutates
it in place. -/
inductive TableOp where
  | filterEq (c v : String)
  | readCol (c : String)
  | countRows
  | groupbyMean (key c : String)
  | sortValues (c : String)
  | describeAll
  | setCol (c : String) (f : CellVal → CellVal)

/-- Effect of one operation on the frame it is applied to: only `setCol`
changes it. -/
def applyOp (tbl : Table) : TableOp → Table
  | .setCol c f =>
    { cols := tbl.cols,
      rows := tbl.rows.map (fun r =>
        r.map (fun p => if p.1 = c then (p.1, f p.2) else p)) }
  | .filterEq _ _ => tbl
  | .readCol _ => tbl
  | .countRows => tbl
  | .groupbyMean _ _ => tbl
  | .sortValues _ => tbl
  | .describeAll => tbl

/-- Running a sequence of operations against a frame. -/
def execOps (ops : List TableOp) (tbl : Table) : Table := ops.foldl applyOp tbl

/-- The awareness metric column name used throughout the script. -/
def awarenessCol : String := "count turtles with [rumor-known?] / population-size"

/-- The four metric columns of the truth-value comparison (lines 51 to 56 of
the script). -/
def metricCols : List String :=
  ["count turtles with [rumor-known?] / population-size",
   "mean [belief] of turtles",
   "count turtles with [belief > 0.5]",
   "variance [belief] of turtles"]

/-- The table operations of `analyze_false_vs_true`: the two truth-value
filters, then per metric column the mean/std/t-test reads and the group
sizes, then the plotting reads. -/
def falseVsTrueOps : List TableOp :=
  [.filterEq "rumor-is-true?" "true", .filterEq "rumor-is-true?" "false"] ++
    metricCols.flatMap (fun c => [.readCol c, .countRows]) ++
    metricCols.map (fun c => .readCol c)

/-- The table operations of `analyze_heterogeneity_effect`: per truth value,
the subset filter and the regression reads. -/
def heterogeneityOps : List TableOp :=
  [.filterEq "rumor-is-true?" "true",
   .readCol "heterogeneity-level", .readCol awarenessCol,
   .filterEq "rumor-is-true?" "false",
   .readCol "heterogeneity-level", .readCol awarenessCol]

/-- The table operations of `analyze_network_structure`: per truth value,
the subset filter, the three network-type filters and the ANOVA reads. -/
def networkOps : List TableOp :=
  [.filterEq "rumor-is-true?" "true",
   .filterEq "network-type" "random", .filterEq "network-type" "small-world",
   .filterEq "network-type" "scale-free", .readCol awarenessCol,
   .filterEq "rumor-is-true?" "false",
   .filterEq "network-type" "random", .filterEq "network-type" "small-world",
   .filterEq "network-type" "scale-free", .readCol awarenessCol]

/-- The table operations of `analyze_time_series`: the run and tick column
reads, then per truth value the subset filter, the per-run sort (pandas
`sort_values`, not in place) and the per-tick group-by mean. -/
def timeSeriesOps : List TableOp :=
  [.readCol "[run number]", .readCol "ticks",
   .filterEq "rumor-is-true?" "true", .sortValues "ticks",
   .groupbyMean "ticks" awarenessCol,
   .filterEq "rumor-is-true?" "false", .sortValues "ticks",
   .groupbyMean "ticks" awarenessCol]

/-- C9: none of the four analyses mutates its input table: running the
operations of the group comparison, the regression, the ANOVA or the
time-series aggregation over any table leaves it exactly as it was, and
every single operation in those sequences leaves any table it touches
unchanged (none is the mutating `setCol` used by the loader). -/
theorem analyses_no_mutation (tbl : Table) :
    execOps falseVsTrueOps tbl = tbl
    ∧ execOps heterogeneityOps tbl = tbl
    ∧ execOps networkOps tbl = tbl
    ∧ execOps timeSeriesOps tbl = tbl
    ∧ (∀ op ∈ falseVsTrueOps ++ heterogeneityOps ++ networkOps ++ timeSeriesOps,
        ∀ t : Table, applyOp t op = t) := by
  refine ⟨rfl, rfl, rfl, rfl, ?_⟩
  intro op hop t
  fin_cases hop <;> rfl

/-- Witness for C9: the truth-value filter, the first operation of the
comparison, leaves a concrete empty table unchanged. -/
theorem analyses_no_mutation_witness :
    applyOp { cols := [], rows := [] } (TableOp.filterEq "rumor-is-true?" "true") =
      ({ cols := [], rows := [] } : Table) :=
  (analyses_no_mutation { cols := [], rows := [] }).2.2.2.2
    (.filterEq "rumor-is-true?" "true") (by simp [falseVsTrueOps])
    { cols := [], rows := [] }

end ATP
